import Mathlib

/-!
Verification development for the PeerShare rendezvous relay and chunked
file-transfer core.

The signaling server (src/BE/server_nocmt.js, and the commented copy in
src/unnamed/part_000) is embedded as a pure transition function over an
association list of rooms; each WebSocket connection is a numeric id, and
openness of a socket (readyState OPEN) is an explicit predicate.  The
random generateUniqueCode draw is modelled by passing the drawn code as a
field of the create-room event; freshness is a hypothesis where needed.

The frontend transfer protocol (chunkFile, sendFile, createFileReceiver in
src/FE/src/pages/Send_nocmt.jsx) is embedded with bytes as naturals, and
wire messages as a Frame type distinguishing binary frames from the parse
outcome of string frames (JSON.parse of a stringified object yields the
object back, so string frames are modelled by their parse result; a
non-JSON string is the strInvalid frame).  JavaScript exceptions are
modelled by Except.
-/

namespace PeerShare

/-- A WebSocket connection, identified by a numeric id. -/
abbrev ConnId := Nat

/-- A 4-digit room code (an opaque string key of the rooms Map). -/
abbrev Code := String

/-- The per-connection role recorded in currentRole ('sender' / 'receiver'). -/
inductive Role
  | sender
  | receiver
deriving DecidableEq

/-- A room value of the rooms Map: sender socket plus optional receiver
socket (src/BE/server_nocmt.js lines 68-71). -/
structure Room where
  sender : ConnId
  receiver : Option ConnId
deriving DecidableEq

/-- The rooms Map (code to room), as an association list. -/
abbrev RoomMap := List (Code × Room)

/-- rooms.get / rooms.has: lookup of a code. -/
def mapGet : RoomMap → Code → Option Room
  | [], _ => none
  | (c', r) :: rest, c => if c' = c then some r else mapGet rest c

/-- rooms.set: insert or replace the binding of a code. -/
def mapSet : RoomMap → Code → Room → RoomMap
  | [], c, r => [(c, r)]
  | (c', r') :: rest, c, r =>
      if c' = c then (c, r) :: rest else (c', r') :: mapSet rest c r

/-- rooms.delete: remove the binding of a code. -/
def mapDelete (m : RoomMap) (c : Code) : RoomMap :=
  m.filter (fun p => p.1 != c)

/-- Per-connection closure state: currentCode and currentRole
(src/BE/server_nocmt.js lines 47-48). -/
structure ConnState where
  currentCode : Option Code
  currentRole : Option Role
deriving DecidableEq

/-- currentRole as the string interpolated into notification texts
(a null role prints as "null" in a JS template literal). -/
def roleStr : Option Role → String
  | some Role.sender => "sender"
  | some Role.receiver => "receiver"
  | none => "null"

/-- Inbound client messages, by their type discriminator.  createRoom
carries the code drawn by generateUniqueCode at that event. -/
inductive ClientMsg
  | createRoom (fresh : Code)
  | joinRoom (code : Code)
  | offer (payload : String)
  | answer (payload : String)
  | iceCandidate (payload : String)
  | fileMeta (fileName : String) (fileSize : Nat) (fileType : String)
  | sessionEnded
  | invalidJson
  | unknown
deriving DecidableEq

/-- Outbound server messages, by their type discriminator. -/
inductive ServerMsg
  | roomCreated (code : Code)
  | roomJoined (code : Code)
  | peerJoined
  | offer (payload : String)
  | answer (payload : String)
  | iceCandidate (payload : String)
  | fileMeta (fileName : String) (fileSize : Nat) (fileType : String)
  | sessionEnded (message : String)
  | peerDisconnected (message : String)
  | error (message : String)
deriving DecidableEq

/-- sendMessage (src/BE/server_nocmt.js lines 21-25): transmits only when
the target socket is open, otherwise the message is dropped. -/
def sendMessage (isOpen : ConnId → Bool) (ws : ConnId) (m : ServerMsg) :
    List (ConnId × ServerMsg) :=
  if isOpen ws then [(ws, m)] else []

/-- Result of one message event: the new rooms Map, the new closure state
of the handling connection, and the messages sent (target, message). -/
structure HandleResult where
  rooms : RoomMap
  conn : ConnState
  out : List (ConnId × ServerMsg)
deriving DecidableEq

/-- handleDisconnect (src/BE/server_nocmt.js lines 27-42): notify the
other peer if present and open, then delete the room. -/
def handleDisconnect (isOpen : ConnId → Bool) (rooms : RoomMap)
    (code : Option Code) (role : Option Role) :
    RoomMap × List (ConnId × ServerMsg) :=
  match code with
  | none => (rooms, [])
  | some c =>
    match mapGet rooms c with
    | none => (rooms, [])
    | some room =>
      let otherPeer : Option ConnId :=
        if role = some Role.sender then room.receiver else some room.sender
      let msgs :=
        match otherPeer with
        | some o =>
            if isOpen o then
              sendMessage isOpen o
                (ServerMsg.peerDisconnected
                  ("The " ++ roleStr role ++ " has disconnected"))
            else []
        | none => []
      (mapDelete rooms c, msgs)

/-- The ws.on message handler of src/BE/server_nocmt.js lines 50-183,
one case per message type.  In this file a session-ended message falls
into the default case and nothing is forwarded. -/
def handleMessage (isOpen : ConnId → Bool) (rooms : RoomMap) (ws : ConnId)
    (conn : ConnState) (msg : ClientMsg) : HandleResult :=
  match msg with
  | ClientMsg.invalidJson =>
      ⟨rooms, conn, sendMessage isOpen ws (ServerMsg.error "Invalid message format")⟩
  | ClientMsg.createRoom fresh =>
      ⟨mapSet rooms fresh ⟨ws, none⟩,
       ⟨some fresh, some Role.sender⟩,
       sendMessage isOpen ws (ServerMsg.roomCreated fresh)⟩
  | ClientMsg.joinRoom c =>
      match mapGet rooms c with
      | none =>
          ⟨rooms, conn,
           sendMessage isOpen ws (ServerMsg.error "Invalid code. No room found.")⟩
      | some room =>
          match room.receiver with
          | some _ =>
              ⟨rooms, conn,
               sendMessage isOpen ws
                 (ServerMsg.error "Room is full. Someone already joined.")⟩
          | none =>
              ⟨mapSet rooms c ⟨room.sender, some ws⟩,
               ⟨some c, some Role.receiver⟩,
               sendMessage isOpen ws (ServerMsg.roomJoined c) ++
                 sendMessage isOpen room.sender ServerMsg.peerJoined⟩
  | ClientMsg.offer p =>
      match conn.currentCode with
      | some c =>
          match mapGet rooms c with
          | some room =>
              match room.receiver with
              | some rcv => ⟨rooms, conn, sendMessage isOpen rcv (ServerMsg.offer p)⟩
              | none => ⟨rooms, conn, []⟩
          | none => ⟨rooms, conn, []⟩
      | none => ⟨rooms, conn, []⟩
  | ClientMsg.answer p =>
      match conn.currentCode with
      | some c =>
          match mapGet rooms c with
          | some room =>
              ⟨rooms, conn, sendMessage isOpen room.sender (ServerMsg.answer p)⟩
          | none => ⟨rooms, conn, []⟩
      | none => ⟨rooms, conn, []⟩
  | ClientMsg.iceCandidate p =>
      match conn.currentCode with
      | some c =>
          match mapGet rooms c with
          | some room =>
              let targetPeer : Option ConnId :=
                if conn.currentRole = some Role.sender then room.receiver
                else some room.sender
              match targetPeer with
              | some tgt =>
                  ⟨rooms, conn, sendMessage isOpen tgt (ServerMsg.iceCandidate p)⟩
              | none => ⟨rooms, conn, []⟩
          | none => ⟨rooms, conn, []⟩
      | none => ⟨rooms, conn, []⟩
  | ClientMsg.fileMeta fn fs ft =>
      match conn.currentCode with
      | some c =>
          match mapGet rooms c with
          | some room =>
              match room.receiver with
              | some rcv =>
                  ⟨rooms, conn, sendMessage isOpen rcv (ServerMsg.fileMeta fn fs ft)⟩
              | none => ⟨rooms, conn, []⟩
          | none => ⟨rooms, conn, []⟩
      | none => ⟨rooms, conn, []⟩
  | ClientMsg.sessionEnded => ⟨rooms, conn, []⟩
  | ClientMsg.unknown => ⟨rooms, conn, []⟩

/-- The message handler of the commented server copy
(src/unnamed/part_000 lines 171-393): identical to handleMessage except
that it also forwards session-ended (lines 376-388) to the counterpart
when present and open.  All other cases delegate to handleMessage, whose
cases are textually identical in the two files. -/
def handleMessageFull (isOpen : ConnId → Bool) (rooms : RoomMap) (ws : ConnId)
    (conn : ConnState) (msg : ClientMsg) : HandleResult :=
  match msg with
  | ClientMsg.sessionEnded =>
      match conn.currentCode with
      | some c =>
          match mapGet rooms c with
          | some room =>
              let otherPeer : Option ConnId :=
                if conn.currentRole = some Role.sender then room.receiver
                else some room.sender
              match otherPeer with
              | some o =>
                  if isOpen o then
                    ⟨rooms, conn,
                     sendMessage isOpen o
                       (ServerMsg.sessionEnded
                         ("The " ++ roleStr conn.currentRole ++
                           " has ended the session"))⟩
                  else ⟨rooms, conn, []⟩
              | none => ⟨rooms, conn, []⟩
          | none => ⟨rooms, conn, []⟩
      | none => ⟨rooms, conn, []⟩
  | m => handleMessage isOpen rooms ws conn m

/-- CHUNK_SIZE = 16 * 1024 (src/FE/src/pages/Send_nocmt.jsx line 1562). -/
def CHUNK_SIZE : Nat := 16 * 1024

/-- A browser File: name, MIME type and byte content (bytes as naturals).
The File size attribute is the byte length of the content. -/
structure JsFile where
  name : String
  mimeType : String
  content : List Nat
deriving DecidableEq

/-- file.size of a browser File is its byte length. -/
def JsFile.size (f : JsFile) : Nat := f.content.length

/-- Loop body of chunkFile (src/FE/src/pages/Send_nocmt.jsx lines
1937-1941): slice off CHUNK_SIZE bytes per iteration.  The fuel argument
bounds the iteration count; since every iteration on a nonempty buffer
consumes at least one byte, fuel equal to the byte length is enough. -/
def chunkFileGo : Nat → List Nat → List (List Nat)
  | 0, _ => []
  | _, [] => []
  | fuel + 1, b :: bs =>
      ((b :: bs).take CHUNK_SIZE) :: chunkFileGo fuel ((b :: bs).drop CHUNK_SIZE)

/-- chunkFile (src/FE/src/pages/Send_nocmt.jsx lines 1926-1954): partition
the file content into consecutive slices of at most CHUNK_SIZE bytes. -/
def chunkFile (bytes : List Nat) : List (List Nat) :=
  chunkFileGo bytes.length bytes

/-- A message on the direct data channel, as the receiver observes it:
either a binary frame, or a string frame described by the outcome of
JSON.parse on it.  strInvalid is a string JSON.parse rejects
(SyntaxError); strNull is the string "null", whose parse succeeds with
the value null so that the subsequent message.type property read throws
TypeError; strOther is any other valid JSON whose type-field read
succeeds but equals neither file-meta nor file-end (objects with another
or absent type, and non-null primitives or arrays, where the read yields
undefined). -/
inductive Frame
  | strInvalid
  | strNull
  | strMeta (name : String) (size : Nat) (mimeType : String)
  | strEnd
  | strOther
  | bin (bytes : List Nat)
deriving DecidableEq

/-- One invocation of sendNextChunk (src/FE/src/pages/Send_nocmt.jsx
lines 2003-2027) over the fixed chunk list, starting from sentChunks =
sent.  The while loop runs as long as bufferedAmount stays at or below
BUFFER_THRESHOLD and chunks remain; budget is the number of iterations
the environment-controlled bufferedAmount admits this time.  After the
loop, a file-end sentinel is sent whenever sentChunks has reached the
chunk count - on every such invocation, since the handler stays
registered. -/
def sendNextChunk (chunks : List (List Nat)) (sent budget : Nat) :
    Nat × List Frame :=
  let k := min budget (chunks.length - sent)
  let frames := ((chunks.drop sent).take k).map Frame.bin
  let sent' := sent + k
  if chunks.length ≤ sent' then (sent', frames ++ [Frame.strEnd])
  else (sent', frames)

/-- The sequence of sendNextChunk invocations of one sendFile run: the
initial call plus one call per firing of onbufferedamountlow, each with
its environment-chosen budget. -/
def runSends (chunks : List (List Nat)) : Nat → List Nat → List Frame
  | _, [] => []
  | sent, b :: bs =>
      let r := sendNextChunk chunks sent b
      r.2 ++ runSends chunks r.1 bs

/-- All frames emitted by one run of sendFile (src/FE/src/pages/
Send_nocmt.jsx lines 1976-2034): the metadata frame, then the frames of
the sendNextChunk invocations.  budgets lists the per-invocation loop
budgets (head = the initial call; tail = one entry per drain firing). -/
def sendFileRun (f : JsFile) (budgets : List Nat) : List Frame :=
  Frame.strMeta f.name f.size f.mimeType :: runSends (chunkFile f.content) 0 budgets

/-- The stored file metadata of the receiver (name, size, mimeType). -/
structure FileMeta where
  name : String
  size : Nat
  mimeType : String
deriving DecidableEq

/-- Closure state of createFileReceiver (src/FE/src/pages/Send_nocmt.jsx
lines 2053-2057): fileMetadata, receivedChunks, receivedBytes. -/
structure RecvState where
  fileMetadata : Option FileMeta
  receivedChunks : List (List Nat)
  receivedBytes : Nat
deriving DecidableEq

/-- The fresh receiver state. -/
def initRecv : RecvState := ⟨none, [], 0⟩

/-- Calls the receiver makes to its callbacks, in order. -/
inductive RecvEvent
  | metadata (m : FileMeta)
  | progress (received total : Nat) (percent : Option Nat)
  | complete (name mimeType : String) (content : List Nat)
deriving DecidableEq

/-- JavaScript exceptions the receiver handler can raise: JSON.parse on a
non-JSON string (SyntaxError), and reading a property of null
(TypeError). -/
inductive JsError
  | jsonParseError
  | typeError
deriving DecidableEq

deriving instance DecidableEq for Except

/-- Math.round of received/total * 100, for the progress report; a zero
total divides to NaN/Infinity in JS, modelled as none. -/
def percentOf (received total : Nat) : Option Nat :=
  if total = 0 then none else some ((received * 100 * 2 + total) / (2 * total))

/-- The handleMessage closure returned by createFileReceiver
(src/FE/src/pages/Send_nocmt.jsx lines 2063-2106).  A non-JSON string
makes JSON.parse throw; the string "null" parses to null and the
unguarded message.type read then throws; a file-end with fileMetadata
still null makes reading fileMetadata.mimeType throw; otherwise:
file-meta stores the metadata, file-end assembles the Blob from the
accumulated chunks, calls onComplete and resets the state, other JSON
strings are ignored, and a binary frame is appended with a progress
report only when metadata is present. -/
def recvMessage (st : RecvState) (msg : Frame) :
    Except JsError (RecvState × List RecvEvent) :=
  match msg with
  | Frame.strInvalid => Except.error JsError.jsonParseError
  | Frame.strNull => Except.error JsError.typeError
  | Frame.strMeta name size mime =>
      Except.ok ({ st with fileMetadata := some ⟨name, size, mime⟩ },
        [RecvEvent.metadata ⟨name, size, mime⟩])
  | Frame.strEnd =>
      match st.fileMetadata with
      | none => Except.error JsError.typeError
      | some m =>
          Except.ok (initRecv,
            [RecvEvent.complete m.name m.mimeType st.receivedChunks.flatten])
  | Frame.strOther => Except.ok (st, [])
  | Frame.bin bytes =>
      let st' : RecvState :=
        { st with receivedChunks := st.receivedChunks ++ [bytes],
                  receivedBytes := st.receivedBytes + bytes.length }
      match st.fileMetadata with
      | some m =>
          Except.ok (st',
            [RecvEvent.progress st'.receivedBytes m.size
              (percentOf st'.receivedBytes m.size)])
      | none => Except.ok (st', [])

/-- Feeding a sequence of frames to the receiver handler, collecting all
callback events; stops at the first exception. -/
def runReceiver (st : RecvState) : List Frame →
    Except JsError (RecvState × List RecvEvent)
  | [] => Except.ok (st, [])
  | f :: fs =>
      match recvMessage st f with
      | Except.error e => Except.error e
      | Except.ok (st', evs) =>
          match runReceiver st' fs with
          | Except.error e => Except.error e
          | Except.ok (st'', evs') => Except.ok (st'', evs ++ evs')

/-! Helper lemmas about the rooms Map operations. -/

theorem mapGet_mapSet_self (m : RoomMap) (c : Code) (r : Room) :
    mapGet (mapSet m c r) c = some r := by
  induction m with
  | nil => simp [mapSet, mapGet]
  | cons p rest ih =>
      by_cases h : p.1 = c
      · simp [mapSet, mapGet, h]
      · simp [mapSet, mapGet, h, ih]

theorem mapGet_mapSet_ne (m : RoomMap) (c c' : Code) (r : Room) (h : c' ≠ c) :
    mapGet (mapSet m c r) c' = mapGet m c' := by
  induction m with
  | nil => simp [mapSet, mapGet, Ne.symm h]
  | cons p rest ih =>
      obtain ⟨pc, pr⟩ := p
      by_cases hp : pc = c
      · subst hp
        simp [mapSet, mapGet, Ne.symm h]
      · simp [mapSet, mapGet, hp, ih]

theorem mapGet_mapSet_isSome (m : RoomMap) (c c' : Code) (r : Room)
    (h : mapGet m c' ≠ none) : mapGet (mapSet m c r) c' ≠ none := by
  by_cases hc : c' = c
  · subst hc
    simp [mapGet_mapSet_self]
  · rw [mapGet_mapSet_ne m c c' r hc]
    exact h

theorem mapGet_mapDelete_self (m : RoomMap) (c : Code) :
    mapGet (mapDelete m c) c = none := by
  induction m with
  | nil => rfl
  | cons p rest ih =>
      obtain ⟨pc, pr⟩ := p
      by_cases h : pc = c
      · subst h
        simpa [mapDelete, List.filter_cons] using ih
      · simpa [mapDelete, List.filter_cons, bne_iff_ne, h, mapGet] using ih

/-! Helper lemmas about the chunk partition. -/

theorem chunkFileGo_nil (fuel : Nat) : chunkFileGo fuel [] = [] := by
  cases fuel <;> rfl

theorem chunkFileGo_flatten (fuel : Nat) (l : List Nat) (h : l.length ≤ fuel) :
    (chunkFileGo fuel l).flatten = l := by
  induction fuel generalizing l with
  | zero =>
      have : l = [] := List.length_eq_zero.mp (Nat.le_zero.mp h)
      simp [this, chunkFileGo]
  | succ fuel ih =>
      cases l with
      | nil => simp [chunkFileGo]
      | cons b bs =>
          have hlen : ((b :: bs).drop CHUNK_SIZE).length ≤ fuel := by
            simp only [List.length_drop, List.length_cons, CHUNK_SIZE]
            simp only [List.length_cons] at h
            omega
          simp only [chunkFileGo, List.flatten_cons, ih _ hlen,
            List.take_append_drop]

theorem chunkFileGo_length (fuel : Nat) (l : List Nat) (h : l.length ≤ fuel) :
    (chunkFileGo fuel l).length = (l.length + CHUNK_SIZE - 1) / CHUNK_SIZE := by
  induction fuel generalizing l with
  | zero =>
      have : l = [] := List.length_eq_zero.mp (Nat.le_zero.mp h)
      subst this
      simp [chunkFileGo, CHUNK_SIZE]
  | succ fuel ih =>
      cases l with
      | nil => simp [chunkFileGo, CHUNK_SIZE]
      | cons b bs =>
          have hlen : ((b :: bs).drop CHUNK_SIZE).length ≤ fuel := by
            simp only [List.length_drop, List.length_cons, CHUNK_SIZE]
            simp only [List.length_cons] at h
            omega
          have := ih _ hlen
          simp only [chunkFileGo, List.length_cons, this, List.length_drop]
          simp only [CHUNK_SIZE, List.length_cons] at *
          omega

theorem chunkFileGo_mem_le (fuel : Nat) (l : List Nat) :
    ∀ ch ∈ chunkFileGo fuel l, ch.length ≤ CHUNK_SIZE := by
  induction fuel generalizing l with
  | zero => simp [chunkFileGo]
  | succ fuel ih =>
      cases l with
      | nil => simp [chunkFileGo]
      | cons b bs =>
          intro ch hch
          simp only [chunkFileGo, List.mem_cons] at hch
          rcases hch with h | h
          · subst h
            exact List.length_take_le CHUNK_SIZE (b :: bs)
          · exact ih _ ch h

theorem chunkFileGo_dropLast (fuel : Nat) (l : List Nat) (h : l.length ≤ fuel) :
    ∀ ch ∈ (chunkFileGo fuel l).dropLast, ch.length = CHUNK_SIZE := by
  induction fuel generalizing l with
  | zero =>
      have : l = [] := List.length_eq_zero.mp (Nat.le_zero.mp h)
      simp [this, chunkFileGo]
  | succ fuel ih =>
      cases l with
      | nil => simp [chunkFileGo]
      | cons b bs =>
          have hlen : ((b :: bs).drop CHUNK_SIZE).length ≤ fuel := by
            simp only [List.length_drop, List.length_cons, CHUNK_SIZE]
            simp only [List.length_cons] at h
            omega
          intro ch hch
          simp only [chunkFileGo] at hch
          rcases hrest : chunkFileGo fuel ((b :: bs).drop CHUNK_SIZE) with _ | ⟨r, rs⟩
          · simp [hrest] at hch
          · rw [hrest, List.dropLast_cons_of_ne_nil (by simp)] at hch
            rcases List.mem_cons.mp hch with hh | hh
            · subst hh
              have hne : (b :: bs).drop CHUNK_SIZE ≠ [] := by
                intro hnil
                rw [hnil, chunkFileGo_nil] at hrest
                exact List.cons_ne_nil r rs hrest.symm
              have hlong : CHUNK_SIZE < (b :: bs).length := by
                by_contra hle
                push_neg at hle
                exact hne (List.drop_eq_nil_of_le hle)
              simp only [List.length_take, List.length_cons]
              simp only [List.length_cons] at hlong
              omega
            · exact ih _ hlen ch (hrest ▸ hh)

/-- Specialisations of the chunk lemmas to chunkFile itself. -/
theorem chunkFile_flatten (l : List Nat) : (chunkFile l).flatten = l :=
  chunkFileGo_flatten l.length l (Nat.le_refl _)

theorem chunkFile_length (l : List Nat) :
    (chunkFile l).length = (l.length + CHUNK_SIZE - 1) / CHUNK_SIZE :=
  chunkFileGo_length l.length l (Nat.le_refl _)

/-! Helper lemmas about the receiver fold. -/

theorem runReceiver_append_ok (l1 l2 : List Frame) (st st1 st2 : RecvState)
    (evs1 evs2 : List RecvEvent)
    (h1 : runReceiver st l1 = Except.ok (st1, evs1))
    (h2 : runReceiver st1 l2 = Except.ok (st2, evs2)) :
    runReceiver st (l1 ++ l2) = Except.ok (st2, evs1 ++ evs2) := by
  induction l1 generalizing st evs1 with
  | nil =>
      simp only [runReceiver, Except.ok.injEq, Prod.mk.injEq] at h1
      obtain ⟨hst, hevs⟩ := h1
      subst hst
      subst hevs
      simpa using h2
  | cons f fs ih =>
      simp only [runReceiver, List.cons_append] at h1 ⊢
      rcases hf : recvMessage st f with e | ⟨st', evs⟩
      · rw [hf] at h1
        simp at h1
      · simp only [hf] at h1 ⊢
        rcases hr : runReceiver st' fs with e | ⟨st'', evs'⟩
        · rw [hr] at h1
          simp at h1
        · rw [hr] at h1
          simp only [Except.ok.injEq, Prod.mk.injEq] at h1
          obtain ⟨hst, hevs⟩ := h1
          subst hst
          rw [show fs.append l2 = fs ++ l2 from rfl, ih st' evs' hr, ← hevs]
          simp

/-- Feeding the receiver a list of binary frames while metadata is stored:
never throws, appends all the chunks, and adds all their lengths to
receivedBytes. -/
theorem recv_bin_run (chunks : List (List Nat)) (st : RecvState) (m : FileMeta)
    (hm : st.fileMetadata = some m) :
    ∃ evs, runReceiver st (chunks.map Frame.bin) =
      Except.ok
        (⟨some m, st.receivedChunks ++ chunks,
          st.receivedBytes + (chunks.map List.length).sum⟩, evs) := by
  induction chunks generalizing st with
  | nil =>
      refine ⟨[], ?_⟩
      simp only [List.map_nil, runReceiver, List.map, List.sum_nil,
        Nat.add_zero, List.append_nil]
      rw [← hm]
  | cons ch chs ih =>
      have hstep : recvMessage st (Frame.bin ch) =
          Except.ok
            ({ st with receivedChunks := st.receivedChunks ++ [ch],
                       receivedBytes := st.receivedBytes + ch.length },
             [RecvEvent.progress (st.receivedBytes + ch.length) m.size
               (percentOf (st.receivedBytes + ch.length) m.size)]) := by
        simp [recvMessage, hm]
      obtain ⟨evs, hrun⟩ := ih
        { st with receivedChunks := st.receivedChunks ++ [ch],
                  receivedBytes := st.receivedBytes + ch.length }
        (by simp [hm])
      refine ⟨RecvEvent.progress (st.receivedBytes + ch.length) m.size
          (percentOf (st.receivedBytes + ch.length) m.size) :: evs, ?_⟩
      simp only [List.map_cons, runReceiver, hstep]
      rw [hrun]
      simp only [List.map_cons, List.sum_cons]
      have h1 : (st.receivedChunks ++ [ch]) ++ chs = st.receivedChunks ++ ch :: chs := by
        simp
      have h2 : st.receivedBytes + ch.length + (chs.map List.length).sum =
          st.receivedBytes + (ch.length + (chs.map List.length).sum) := by
        omega
      rw [h1, h2]
      simp

/-- A single sendNextChunk invocation whose budget covers all remaining
chunks emits every chunk in order followed by one sentinel. -/
theorem runSends_single (chunks : List (List Nat)) :
    runSends chunks 0 [chunks.length] =
      chunks.map Frame.bin ++ [Frame.strEnd] := by
  simp only [runSends, sendNextChunk, Nat.sub_zero, Nat.min_self,
    List.drop_zero, List.take_length, Nat.zero_add, Nat.le_refl, if_pos,
    List.append_nil]

/-! Helper lemmas about the relay. -/

theorem mem_sendMessage (isOpen : ConnId → Bool) (x tgt : ConnId)
    (m sm : ServerMsg) (h : (tgt, sm) ∈ sendMessage isOpen x m) : tgt = x := by
  by_cases hx : isOpen x <;> simp [sendMessage, hx] at h
  exact h.1

/-- No message event ever deletes a room (src/BE/server_nocmt.js: only
handleDisconnect calls rooms.delete). -/
theorem rooms_preserved (isOpen : ConnId → Bool) (rooms : RoomMap)
    (ws : ConnId) (conn : ConnState) (msg : ClientMsg) (c' : Code)
    (h : mapGet rooms c' ≠ none) :
    mapGet (handleMessage isOpen rooms ws conn msg).rooms c' ≠ none := by
  cases msg with
  | createRoom fresh => exact mapGet_mapSet_isSome rooms fresh c' _ h
  | joinRoom cj =>
      rcases hr : mapGet rooms cj with _ | room
      · simpa [handleMessage, hr] using h
      · rcases hrecv : room.receiver with _ | r0
        · simp only [handleMessage, hr, hrecv]
          exact mapGet_mapSet_isSome rooms cj c' _ h
        · simpa [handleMessage, hr, hrecv] using h
  | offer p =>
      rcases hc : conn.currentCode with _ | c
      · simpa [handleMessage, hc] using h
      · rcases hr : mapGet rooms c with _ | room
        · simpa [handleMessage, hc, hr] using h
        · rcases hrecv : room.receiver with _ | r0 <;>
            simpa [handleMessage, hc, hr, hrecv] using h
  | answer p =>
      rcases hc : conn.currentCode with _ | c
      · simpa [handleMessage, hc] using h
      · rcases hr : mapGet rooms c with _ | room <;>
          simpa [handleMessage, hc, hr] using h
  | iceCandidate p =>
      rcases hc : conn.currentCode with _ | c
      · simpa [handleMessage, hc] using h
      · rcases hr : mapGet rooms c with _ | room
        · simpa [handleMessage, hc, hr] using h
        · rcases htgt : (if conn.currentRole = some Role.sender then room.receiver
              else some room.sender) with _ | tgt <;>
            simpa [handleMessage, hc, hr, htgt] using h
  | fileMeta fn fs ft =>
      rcases hc : conn.currentCode with _ | c
      · simpa [handleMessage, hc] using h
      · rcases hr : mapGet rooms c with _ | room
        · simpa [handleMessage, hc, hr] using h
        · rcases hrecv : room.receiver with _ | r0 <;>
            simpa [handleMessage, hc, hr, hrecv] using h
  | sessionEnded => simpa [handleMessage] using h
  | invalidJson => simpa [handleMessage] using h
  | unknown => simpa [handleMessage] using h

/-- The commented server copy also never deletes a room on a message. -/
theorem rooms_preservedFull (isOpen : ConnId → Bool) (rooms : RoomMap)
    (ws : ConnId) (conn : ConnState) (msg : ClientMsg) (c' : Code)
    (h : mapGet rooms c' ≠ none) :
    mapGet (handleMessageFull isOpen rooms ws conn msg).rooms c' ≠ none := by
  cases msg with
  | sessionEnded =>
      rcases hc : conn.currentCode with _ | c
      · simpa [handleMessageFull, hc] using h
      · rcases hr : mapGet rooms c with _ | room
        · simpa [handleMessageFull, hc, hr] using h
        · rcases htgt : (if conn.currentRole = some Role.sender then room.receiver
              else some room.sender) with _ | tgt
          · simpa [handleMessageFull, hc, hr, htgt] using h
          · by_cases ho : isOpen tgt <;>
              simpa [handleMessageFull, hc, hr, htgt, ho] using h
  | createRoom fresh => exact rooms_preserved isOpen rooms ws conn _ c' h
  | joinRoom cj => exact rooms_preserved isOpen rooms ws conn _ c' h
  | offer p => exact rooms_preserved isOpen rooms ws conn _ c' h
  | answer p => exact rooms_preserved isOpen rooms ws conn _ c' h
  | iceCandidate p => exact rooms_preserved isOpen rooms ws conn _ c' h
  | fileMeta fn fs ft => exact rooms_preserved isOpen rooms ws conn _ c' h
  | invalidJson => exact rooms_preserved isOpen rooms ws conn _ c' h
  | unknown => exact rooms_preserved isOpen rooms ws conn _ c' h

/-- A join attempt on a room whose responder slot is occupied changes
nothing and reports the full-room error. -/
theorem join_full_unchanged (isOpen : ConnId → Bool) (rooms : RoomMap)
    (ws : ConnId) (conn : ConnState) (c : Code) (room : Room) (r0 : ConnId)
    (hroom : mapGet rooms c = some room) (hr : room.receiver = some r0) :
    handleMessage isOpen rooms ws conn (ClientMsg.joinRoom c) =
      ⟨rooms, conn,
       sendMessage isOpen ws (ServerMsg.error "Room is full. Someone already joined.")⟩ := by
  simp [handleMessage, hroom, hr]

/-- Once the responder slot of the room behind a code is occupied, no
sequence of further join attempts ever changes that binding. -/
theorem joinSeq_stuck (isOpen : ConnId → Bool) (c : Code) (snd ws0 : ConnId) :
    ∀ (joiners : List ConnId) (rs : RoomMap),
      mapGet rs c = some ⟨snd, some ws0⟩ →
      mapGet (joiners.foldl (fun rs w =>
          (handleMessage isOpen rs w ⟨none, none⟩ (ClientMsg.joinRoom c)).rooms) rs) c =
        some ⟨snd, some ws0⟩ := by
  intro joiners
  induction joiners with
  | nil => intro rs h; exact h
  | cons w wsr ih =>
      intro rs h
      simp only [List.foldl_cons]
      rw [join_full_unchanged isOpen rs w ⟨none, none⟩ c ⟨snd, some ws0⟩ ws0 h rfl]
      exact ih rs h

/-- C5: chunkFile splits a byte source of length L into exactly
ceil(L / CHUNK_SIZE) consecutive frames of at most CHUNK_SIZE bytes each,
where every frame except possibly the last is exactly CHUNK_SIZE bytes,
and their concatenation in emission order is the original source. -/
theorem C5_chunk_partition (bytes : List Nat) :
    (chunkFile bytes).length = (bytes.length + CHUNK_SIZE - 1) / CHUNK_SIZE
    ∧ (chunkFile bytes).flatten = bytes
    ∧ (∀ ch ∈ chunkFile bytes, ch.length ≤ CHUNK_SIZE)
    ∧ (∀ ch ∈ (chunkFile bytes).dropLast, ch.length = CHUNK_SIZE) :=
  ⟨chunkFile_length bytes, chunkFile_flatten bytes,
   chunkFileGo_mem_le bytes.length bytes,
   chunkFileGo_dropLast bytes.length bytes (Nat.le_refl _)⟩

/-- Witness for C5 at the concrete source 5, 6, 7: its single chunk is
within the frame-size bound. -/
theorem C5_witness : ([5, 6, 7] : List Nat).length ≤ CHUNK_SIZE :=
  (C5_chunk_partition [5, 6, 7]).2.2.1 [5, 6, 7] (by decide)

/-- C6: the claim says at most one file-end sentinel is ever emitted per
sendFile run.  The code keeps sendNextChunk registered as the
onbufferedamountlow handler after completion, and sendNextChunk re-sends
the sentinel whenever sentChunks has reached the chunk count, so every
drain firing after completion emits a further sentinel: a one-chunk file
whose drain signal fires once after the initial call yields two
sentinels.  This contradicts the declared frame layout (one sentinel) and
the code's own receiver, which crashes on a duplicate sentinel. -/
theorem C6_duplicate_sentinel :
    sendFileRun ⟨"a.txt", "text/plain", [1, 2, 3]⟩ [1, 0] =
      [Frame.strMeta "a.txt" 3 "text/plain", Frame.bin [1, 2, 3],
       Frame.strEnd, Frame.strEnd]
    ∧ (sendFileRun ⟨"a.txt", "text/plain", [1, 2, 3]⟩ [1, 0]).count Frame.strEnd = 2 := by
  decide

/-- C7 counterexample: the decoder has no Failed state.  A binary frame
arriving before any metadata is silently buffered and later incorporated
into a successfully completed file, and a second metadata frame after
other frames silently overwrites the first - in both runs the decoder
completes instead of failing and the out-of-order data is kept. -/
theorem C7_counterexample :
    runReceiver initRecv [Frame.bin [7], Frame.strMeta "f" 1 "t", Frame.strEnd] =
      Except.ok (initRecv,
        [RecvEvent.metadata ⟨"f", 1, "t"⟩, RecvEvent.complete "f" "t" [7]])
    ∧ runReceiver initRecv
        [Frame.strMeta "f" 1 "t", Frame.bin [7], Frame.strMeta "g" 2 "u", Frame.strEnd] =
      Except.ok (initRecv,
        [RecvEvent.metadata ⟨"f", 1, "t"⟩,
         RecvEvent.progress 1 1 (percentOf 1 1),
         RecvEvent.metadata ⟨"g", 2, "u"⟩,
         RecvEvent.complete "g" "u" [7]]) := by
  decide

/-- C7 amended: the decoder does not fail on protocol-order violations.
A binary frame before metadata is accepted and buffered with no progress
report; a metadata frame is accepted in any state and overwrites the
stored metadata; a sentinel with stored metadata completes with all
accumulated chunks (including any received before the metadata); the only
fatal reaction is an exception when the sentinel arrives with no stored
metadata. -/
theorem C7_decoder_tolerance (st : RecvState) (bytes : List Nat)
    (name mime : String) (size : Nat) :
    (st.fileMetadata = none →
       recvMessage st (Frame.bin bytes) =
         Except.ok ({ st with receivedChunks := st.receivedChunks ++ [bytes],
                              receivedBytes := st.receivedBytes + bytes.length }, []))
    ∧ (recvMessage st (Frame.strMeta name size mime) =
         Except.ok ({ st with fileMetadata := some ⟨name, size, mime⟩ },
           [RecvEvent.metadata ⟨name, size, mime⟩]))
    ∧ (∀ m, st.fileMetadata = some m →
         recvMessage st Frame.strEnd =
           Except.ok (initRecv,
             [RecvEvent.complete m.name m.mimeType st.receivedChunks.flatten]))
    ∧ (st.fileMetadata = none →
         recvMessage st Frame.strEnd = Except.error JsError.typeError) := by
  refine ⟨?_, ?_, ?_, ?_⟩
  · intro h
    simp [recvMessage, h]
  · rfl
  · intro m hm
    simp [recvMessage, hm]
  · intro h
    simp [recvMessage, h]

/-- Witness for C7 at the fresh receiver state: a binary frame before any
metadata is buffered without failing. -/
theorem C7_witness :
    recvMessage initRecv (Frame.bin [7]) =
      Except.ok ({ initRecv with
        receivedChunks := initRecv.receivedChunks ++ [[7]],
        receivedBytes := initRecv.receivedBytes + List.length [7] }, []) :=
  (C7_decoder_tolerance initRecv [7] "n" "m" 0).1 (by decide)

/-- C9: a session-ended message from a bound member.  In the commented
server copy (src/unnamed/part_000, which the frontend relies on - it both
sends session-ended and handles receiving it) the counterpart is notified
and the room is not deleted, exactly as the claim states.  In
src/BE/server_nocmt.js the message falls into the default case: nothing
is forwarded, which contradicts that intent; the room survives in both.
This theorem evaluates both handlers at the failing input. -/
theorem C9_session_ended_divergence :
    handleMessage (fun _ => true) [("1000", ⟨0, some 1⟩)] 1
        ⟨some "1000", some Role.receiver⟩ ClientMsg.sessionEnded =
      ⟨[("1000", ⟨0, some 1⟩)], ⟨some "1000", some Role.receiver⟩, []⟩
    ∧ handleMessageFull (fun _ => true) [("1000", ⟨0, some 1⟩)] 1
        ⟨some "1000", some Role.receiver⟩ ClientMsg.sessionEnded =
      ⟨[("1000", ⟨0, some 1⟩)], ⟨some "1000", some Role.receiver⟩,
       [(0, ServerMsg.sessionEnded "The receiver has ended the session")]⟩ := by
  decide

/-- C10 counterexample: the receiver message handler is not total.  A
string message that is not valid JSON makes JSON.parse throw; the
valid-JSON string "null" parses successfully but the unguarded
message.type read on null throws; and a file-end sentinel arriving when
no metadata has been stored makes the null-property read
fileMetadata.mimeType throw. -/
theorem C10_counterexample :
    recvMessage initRecv Frame.strInvalid = Except.error JsError.jsonParseError
    ∧ recvMessage initRecv Frame.strNull = Except.error JsError.typeError
    ∧ recvMessage initRecv Frame.strEnd = Except.error JsError.typeError := by
  decide

/-- C10 amended: the handler terminates without throwing exactly on the
remaining inputs: every binary frame, and every valid-JSON string frame
unless it parses to null (whose type-field read throws) or it is a
file-end sentinel arriving with no stored metadata. -/
theorem C10_handler_totality (st : RecvState) (msg : Frame)
    (h1 : msg ≠ Frame.strInvalid)
    (h2 : msg ≠ Frame.strNull)
    (h3 : msg = Frame.strEnd → st.fileMetadata ≠ none) :
    ∃ r, recvMessage st msg = Except.ok r := by
  cases msg with
  | strInvalid => exact absurd rfl h1
  | strNull => exact absurd rfl h2
  | strMeta n s m => exact ⟨_, rfl⟩
  | strEnd =>
      rcases hm : st.fileMetadata with _ | m
      · exact absurd hm (h3 rfl)
      · exact ⟨(initRecv,
          [RecvEvent.complete m.name m.mimeType st.receivedChunks.flatten]),
          by simp [recvMessage, hm]⟩
  | strOther => exact ⟨_, rfl⟩
  | bin b =>
      rcases hm : st.fileMetadata with _ | m
      · exact ⟨({ st with receivedChunks := st.receivedChunks ++ [b],
                          receivedBytes := st.receivedBytes + b.length }, []),
          by simp [recvMessage, hm]⟩
      · exact ⟨({ st with receivedChunks := st.receivedChunks ++ [b],
                          receivedBytes := st.receivedBytes + b.length },
          [RecvEvent.progress (st.receivedBytes + b.length) m.size
            (percentOf (st.receivedBytes + b.length) m.size)]),
          by simp [recvMessage, hm]⟩

/-- Witness for C10 at a concrete binary frame in the fresh state. -/
theorem C10_witness : ∃ r, recvMessage initRecv (Frame.bin [1]) = Except.ok r :=
  C10_handler_totality initRecv (Frame.bin [1]) (by decide) (by decide) (by decide)

/-- C1 counterexample: the relay does not always deliver a negotiation
payload to the counterpart.  An offer sent by the responder (connection 1)
of a bound room is delivered back to connection 1 itself - the code always
sends offers to the receiver slot - and the initiator (connection 0, the
counterpart) receives nothing. -/
theorem C1_counterexample :
    (handleMessage (fun _ => true) [("1000", ⟨0, some 1⟩)] 1
        ⟨some "1000", some Role.receiver⟩ (ClientMsg.offer "sdp")).out =
      [(1, ServerMsg.offer "sdp")]
    ∧ ((handleMessage (fun _ => true) [("1000", ⟨0, some 1⟩)] 1
        ⟨some "1000", some Role.receiver⟩ (ClientMsg.offer "sdp")).out.all
        (fun q => q.1 != 0)) = true := by
  decide

/-- C1 amended: for a connection bound to an existing room, the relay
forwards the payload verbatim and routes by fixed slot, not by
counterpart: offer and file-meta always go to the responder slot and
answer always to the initiator slot, regardless of which member sent them
(so a responder-sent offer or an initiator-sent answer is echoed back to
its own sender); only ice-candidate is routed to the sending connection's
role counterpart.  If the target slot is absent or its transport is not
open the message is silently dropped, relay state never changes, and no
delivery ever reaches a connection outside the room's two slots. -/
theorem C1_relay_routing (isOpen : ConnId → Bool) (rooms : RoomMap)
    (ws : ConnId) (conn : ConnState) (c : Code) (room : Room)
    (p fn ft : String) (fs : Nat)
    (hcode : conn.currentCode = some c) (hroom : mapGet rooms c = some room) :
    (handleMessage isOpen rooms ws conn (ClientMsg.offer p) =
       ⟨rooms, conn,
        match room.receiver with
        | some rcv => sendMessage isOpen rcv (ServerMsg.offer p)
        | none => []⟩)
    ∧ (handleMessage isOpen rooms ws conn (ClientMsg.answer p) =
       ⟨rooms, conn, sendMessage isOpen room.sender (ServerMsg.answer p)⟩)
    ∧ (handleMessage isOpen rooms ws conn (ClientMsg.iceCandidate p) =
       ⟨rooms, conn,
        match (if conn.currentRole = some Role.sender then room.receiver
               else some room.sender) with
        | some tgt => sendMessage isOpen tgt (ServerMsg.iceCandidate p)
        | none => []⟩)
    ∧ (handleMessage isOpen rooms ws conn (ClientMsg.fileMeta fn fs ft) =
       ⟨rooms, conn,
        match room.receiver with
        | some rcv => sendMessage isOpen rcv (ServerMsg.fileMeta fn fs ft)
        | none => []⟩)
    ∧ (∀ tgt sm,
         ((tgt, sm) ∈ (handleMessage isOpen rooms ws conn (ClientMsg.offer p)).out ∨
          (tgt, sm) ∈ (handleMessage isOpen rooms ws conn (ClientMsg.answer p)).out ∨
          (tgt, sm) ∈ (handleMessage isOpen rooms ws conn (ClientMsg.iceCandidate p)).out ∨
          (tgt, sm) ∈ (handleMessage isOpen rooms ws conn (ClientMsg.fileMeta fn fs ft)).out) →
         tgt = room.sender ∨ room.receiver = some tgt) := by
  have hoffer : handleMessage isOpen rooms ws conn (ClientMsg.offer p) =
      ⟨rooms, conn,
       match room.receiver with
       | some rcv => sendMessage isOpen rcv (ServerMsg.offer p)
       | none => []⟩ := by
    rcases hrecv : room.receiver with _ | rcv <;>
      simp [handleMessage, hcode, hroom, hrecv]
  have hanswer : handleMessage isOpen rooms ws conn (ClientMsg.answer p) =
      ⟨rooms, conn, sendMessage isOpen room.sender (ServerMsg.answer p)⟩ := by
    simp [handleMessage, hcode, hroom]
  have hice : handleMessage isOpen rooms ws conn (ClientMsg.iceCandidate p) =
      ⟨rooms, conn,
       match (if conn.currentRole = some Role.sender then room.receiver
              else some room.sender) with
       | some tgt => sendMessage isOpen tgt (ServerMsg.iceCandidate p)
       | none => []⟩ := by
    rcases htgt : (if conn.currentRole = some Role.sender then room.receiver
        else some room.sender) with _ | tgt <;>
      simp [handleMessage, hcode, hroom, htgt]
  have hmeta : handleMessage isOpen rooms ws conn (ClientMsg.fileMeta fn fs ft) =
      ⟨rooms, conn,
       match room.receiver with
       | some rcv => sendMessage isOpen rcv (ServerMsg.fileMeta fn fs ft)
       | none => []⟩ := by
    rcases hrecv : room.receiver with _ | rcv <;>
      simp [handleMessage, hcode, hroom, hrecv]
  refine ⟨hoffer, hanswer, hice, hmeta, ?_⟩
  intro tgt sm hmem
  rcases hmem with hm | hm | hm | hm
  · rw [hoffer] at hm
    rcases hrecv : room.receiver with _ | rcv <;> rw [hrecv] at hm
    · simp at hm
    · have htr := mem_sendMessage isOpen rcv tgt _ sm hm
      subst htr
      exact Or.inr rfl
  · rw [hanswer] at hm
    exact Or.inl (mem_sendMessage isOpen room.sender tgt _ sm hm)
  · rw [hice] at hm
    rcases htgt : (if conn.currentRole = some Role.sender then room.receiver
        else some room.sender) with _ | tgt0 <;> rw [htgt] at hm
    · simp at hm
    · have htr := mem_sendMessage isOpen tgt0 tgt _ sm hm
      subst htr
      by_cases hrole : conn.currentRole = some Role.sender
      · rw [if_pos hrole] at htgt
        exact Or.inr htgt
      · rw [if_neg hrole] at htgt
        exact Or.inl (Option.some.inj htgt).symm
  · rw [hmeta] at hm
    rcases hrecv : room.receiver with _ | rcv <;> rw [hrecv] at hm
    · simp at hm
    · have htr := mem_sendMessage isOpen rcv tgt _ sm hm
      subst htr
      exact Or.inr rfl

/-- Witness for C1 on the conventional direction: the initiator of a
bound room sends an offer and it is delivered, unchanged, to the open
responder. -/
theorem C1_witness :
    handleMessage (fun _ => true) [("4821", ⟨0, some 1⟩)] 0
        ⟨some "4821", some Role.sender⟩ (ClientMsg.offer "sdp") =
      ⟨[("4821", ⟨0, some 1⟩)], ⟨some "4821", some Role.sender⟩,
       [(1, ServerMsg.offer "sdp")]⟩ := by
  have h := (C1_relay_routing (fun _ => true) [("4821", ⟨0, some 1⟩)] 0
      ⟨some "4821", some Role.sender⟩ "4821" ⟨0, some 1⟩ "sdp" "f" "t" 3
      (by decide) (by decide)).1
  simpa [sendMessage] using h

/-- C2: feeding the decoder exactly the frames one sendFile run emits for
a source (metadata, the chunk frames in order, one sentinel - the run in
which the single sendNextChunk invocation sends everything) drives the
receiver to completion: it never throws, the state just before the
sentinel has receivedBytes equal to the declared size, and the completed
file carries the declared name and type and a byte stream identical to
the source. -/
theorem C2_encoder_decoder_roundtrip (f : JsFile) :
    ∃ (stMid : RecvState) (evs : List RecvEvent),
      runReceiver initRecv
          (Frame.strMeta f.name f.size f.mimeType ::
            (chunkFile f.content).map Frame.bin) =
        Except.ok (stMid, evs)
      ∧ stMid.receivedBytes = f.size
      ∧ stMid.fileMetadata = some ⟨f.name, f.size, f.mimeType⟩
      ∧ recvMessage stMid Frame.strEnd =
          Except.ok (initRecv, [RecvEvent.complete f.name f.mimeType f.content])
      ∧ sendFileRun f [(chunkFile f.content).length] =
          Frame.strMeta f.name f.size f.mimeType ::
            ((chunkFile f.content).map Frame.bin ++ [Frame.strEnd])
      ∧ runReceiver initRecv (sendFileRun f [(chunkFile f.content).length]) =
          Except.ok (initRecv,
            evs ++ [RecvEvent.complete f.name f.mimeType f.content]) := by
  have hmeta1 : runReceiver initRecv [Frame.strMeta f.name f.size f.mimeType] =
      Except.ok ((⟨some ⟨f.name, f.size, f.mimeType⟩, [], 0⟩ : RecvState),
        [RecvEvent.metadata ⟨f.name, f.size, f.mimeType⟩]) := by
    simp [runReceiver, recvMessage, initRecv]
  obtain ⟨evs2, hbin⟩ := recv_bin_run (chunkFile f.content)
    ⟨some ⟨f.name, f.size, f.mimeType⟩, [], 0⟩ ⟨f.name, f.size, f.mimeType⟩ rfl
  simp only [List.nil_append, Nat.zero_add] at hbin
  have hsum : ((chunkFile f.content).map List.length).sum = f.size := by
    calc ((chunkFile f.content).map List.length).sum
        = (chunkFile f.content).flatten.length := (List.length_flatten _).symm
      _ = f.content.length := by rw [chunkFile_flatten]
      _ = f.size := rfl
  have hall : runReceiver initRecv
      (Frame.strMeta f.name f.size f.mimeType ::
        (chunkFile f.content).map Frame.bin) =
      Except.ok ((⟨some ⟨f.name, f.size, f.mimeType⟩, chunkFile f.content,
          ((chunkFile f.content).map List.length).sum⟩ : RecvState),
        [RecvEvent.metadata ⟨f.name, f.size, f.mimeType⟩] ++ evs2) :=
    runReceiver_append_ok [Frame.strMeta f.name f.size f.mimeType]
      ((chunkFile f.content).map Frame.bin) initRecv
      ⟨some ⟨f.name, f.size, f.mimeType⟩, [], 0⟩
      ⟨some ⟨f.name, f.size, f.mimeType⟩, chunkFile f.content,
        ((chunkFile f.content).map List.length).sum⟩
      [RecvEvent.metadata ⟨f.name, f.size, f.mimeType⟩] evs2 hmeta1 hbin
  have hend : recvMessage
      (⟨some ⟨f.name, f.size, f.mimeType⟩, chunkFile f.content,
        ((chunkFile f.content).map List.length).sum⟩ : RecvState) Frame.strEnd =
      Except.ok (initRecv, [RecvEvent.complete f.name f.mimeType f.content]) := by
    simp [recvMessage, chunkFile_flatten]
  have hframes : sendFileRun f [(chunkFile f.content).length] =
      Frame.strMeta f.name f.size f.mimeType ::
        ((chunkFile f.content).map Frame.bin ++ [Frame.strEnd]) := by
    simp [sendFileRun, runSends_single]
  refine ⟨⟨some ⟨f.name, f.size, f.mimeType⟩, chunkFile f.content,
      ((chunkFile f.content).map List.length).sum⟩,
    [RecvEvent.metadata ⟨f.name, f.size, f.mimeType⟩] ++ evs2,
    hall, hsum, rfl, hend, hframes, ?_⟩
  rw [hframes,
    show Frame.strMeta f.name f.size f.mimeType ::
        ((chunkFile f.content).map Frame.bin ++ [Frame.strEnd]) =
      (Frame.strMeta f.name f.size f.mimeType ::
        (chunkFile f.content).map Frame.bin) ++ [Frame.strEnd] from rfl]
  exact runReceiver_append_ok _ [Frame.strEnd] initRecv _ initRecv
    ([RecvEvent.metadata ⟨f.name, f.size, f.mimeType⟩] ++ evs2)
    [RecvEvent.complete f.name f.mimeType f.content] hall
    (by simp [runReceiver, hend])

/-- C3: join-room semantics.  A join with an unknown code gets the typed
not-found error and changes nothing; a join on a room whose responder
slot is occupied gets the typed full error and changes nothing; a join on
a room with a free responder slot fills the slot with the requester,
acknowledges it with room-joined carrying the code, and notifies the
room's initiator with peer-joined when its socket is open; and after that
first success, any sequence of further join attempts on the same code
leaves the responder binding unchanged - exactly the first join
succeeds. -/
theorem C3_join_room (isOpen : ConnId → Bool) (rooms : RoomMap) (ws : ConnId)
    (conn : ConnState) (c : Code) (hws : isOpen ws = true) :
    (mapGet rooms c = none →
       handleMessage isOpen rooms ws conn (ClientMsg.joinRoom c) =
         ⟨rooms, conn, [(ws, ServerMsg.error "Invalid code. No room found.")]⟩)
    ∧ (∀ room r0, mapGet rooms c = some room → room.receiver = some r0 →
         handleMessage isOpen rooms ws conn (ClientMsg.joinRoom c) =
           ⟨rooms, conn,
            [(ws, ServerMsg.error "Room is full. Someone already joined.")]⟩)
    ∧ (∀ room, mapGet rooms c = some room → room.receiver = none →
         handleMessage isOpen rooms ws conn (ClientMsg.joinRoom c) =
           ⟨mapSet rooms c ⟨room.sender, some ws⟩, ⟨some c, some Role.receiver⟩,
            (ws, ServerMsg.roomJoined c) ::
              sendMessage isOpen room.sender ServerMsg.peerJoined⟩)
    ∧ (∀ room, mapGet rooms c = some room → room.receiver = none →
         isOpen room.sender = true →
         (room.sender, ServerMsg.peerJoined) ∈
           (handleMessage isOpen rooms ws conn (ClientMsg.joinRoom c)).out)
    ∧ (∀ (joiners : List ConnId) room, mapGet rooms c = some room →
         room.receiver = none →
         mapGet (joiners.foldl (fun rs w =>
             (handleMessage isOpen rs w ⟨none, none⟩ (ClientMsg.joinRoom c)).rooms)
           (handleMessage isOpen rooms ws conn (ClientMsg.joinRoom c)).rooms) c =
           some ⟨room.sender, some ws⟩) := by
  refine ⟨?_, ?_, ?_, ?_, ?_⟩
  · intro h
    simp [handleMessage, h, sendMessage, hws]
  · intro room r0 hroom hr
    simp [handleMessage, hroom, hr, sendMessage, hws]
  · intro room hroom hrecv
    simp [handleMessage, hroom, hrecv, sendMessage, hws]
  · intro room hroom hrecv hsnd
    simp [handleMessage, hroom, hrecv, sendMessage, hws, hsnd]
  · intro joiners room hroom hrecv
    have hsucc : (handleMessage isOpen rooms ws conn (ClientMsg.joinRoom c)).rooms =
        mapSet rooms c ⟨room.sender, some ws⟩ := by
      simp [handleMessage, hroom, hrecv]
    rw [hsucc]
    exact joinSeq_stuck isOpen c room.sender ws joiners _
      (mapGet_mapSet_self rooms c _)

/-- Witness for C3: the spec scenario join with never-created code 9999
yields the not-found error and no state change. -/
theorem C3_witness :
    handleMessage (fun _ => true) [] 7 ⟨none, none⟩ (ClientMsg.joinRoom "9999") =
      ⟨[], ⟨none, none⟩, [(7, ServerMsg.error "Invalid code. No room found.")]⟩ :=
  (C3_join_room (fun _ => true) [] 7 ⟨none, none⟩ "9999" (by decide)).1 (by decide)

/-- C4: when the transport of a bound member closes, the member's room
code is deleted from the registry; the counterpart - the receiver slot if
the sender vacates, the sender slot otherwise - receives exactly one
peer-disconnected notification carrying the vacating role when its socket
is open, and nothing otherwise; and no inbound message event, in either
server copy, ever deletes a room - transport close is the only deleting
path. -/
theorem C4_disconnect_cleanup (isOpen : ConnId → Bool) (rooms : RoomMap)
    (c : Code) (role : Role) (room : Room)
    (hroom : mapGet rooms c = some room) :
    mapGet (handleDisconnect isOpen rooms (some c) (some role)).1 c = none
    ∧ (∀ other,
         (if role = Role.sender then room.receiver else some room.sender) = some other →
         isOpen other = true →
         (handleDisconnect isOpen rooms (some c) (some role)).2 =
           [(other, ServerMsg.peerDisconnected
              ("The " ++ roleStr (some role) ++ " has disconnected"))])
    ∧ (∀ other,
         (if role = Role.sender then room.receiver else some room.sender) = some other →
         isOpen other = false →
         (handleDisconnect isOpen rooms (some c) (some role)).2 = [])
    ∧ ((if role = Role.sender then room.receiver else some room.sender) = none →
         (handleDisconnect isOpen rooms (some c) (some role)).2 = [])
    ∧ (∀ (msg : ClientMsg) (ws : ConnId) (conn : ConnState) (c' : Code),
         mapGet rooms c' ≠ none →
         mapGet (handleMessage isOpen rooms ws conn msg).rooms c' ≠ none)
    ∧ (∀ (msg : ClientMsg) (ws : ConnId) (conn : ConnState) (c' : Code),
         mapGet rooms c' ≠ none →
         mapGet (handleMessageFull isOpen rooms ws conn msg).rooms c' ≠ none) := by
  refine ⟨?_, ?_, ?_, ?_,
    fun msg ws conn c' h => rooms_preserved isOpen rooms ws conn msg c' h,
    fun msg ws conn c' h => rooms_preservedFull isOpen rooms ws conn msg c' h⟩
  · simp [handleDisconnect, hroom, mapGet_mapDelete_self]
  · intro other hother hopen
    simp [handleDisconnect, hroom, hother, hopen, sendMessage]
  · intro other hother hopen
    simp [handleDisconnect, hroom, hother, hopen]
  · intro hnone
    simp [handleDisconnect, hroom, hnone]

/-- Witness for C4: the sender of a concrete bound room disconnects; its
code is removed from the registry. -/
theorem C4_witness :
    mapGet (handleDisconnect (fun _ => true) [("1000", ⟨0, some 1⟩)]
      (some "1000") (some Role.sender)).1 "1000" = none :=
  (C4_disconnect_cleanup (fun _ => true) [("1000", ⟨0, some 1⟩)] "1000"
    Role.sender ⟨0, some 1⟩ (by decide)).1

/-- C8 counterexample: the handlers have no Unbound guard.  A connection
already bound as the initiator of room 1000 issues create-room and is
rebound: its room code changes from 1000 to 2000 and a second room is
registered; the same bound initiator can also join another room, which
mutates its role from sender to receiver.  Roles and codes are therefore
not immutable after binding. -/
theorem C8_counterexample :
    (handleMessage (fun _ => true) [("1000", ⟨0, none⟩)] 0
        ⟨some "1000", some Role.sender⟩ (ClientMsg.createRoom "2000")).conn =
      ⟨some "2000", some Role.sender⟩
    ∧ some "2000" ≠ some "1000"
    ∧ mapGet (handleMessage (fun _ => true) [("1000", ⟨0, none⟩)] 0
        ⟨some "1000", some Role.sender⟩ (ClientMsg.createRoom "2000")).rooms "2000" =
      some ⟨0, none⟩
    ∧ (handleMessage (fun _ => true) [("1000", ⟨0, none⟩), ("3000", ⟨5, none⟩)] 0
        ⟨some "1000", some Role.sender⟩ (ClientMsg.joinRoom "3000")).conn =
      ⟨some "3000", some Role.receiver⟩ := by
  decide

/-- C8 amended: create-room and join-room are accepted in every session
state; each success (re)assigns the session's role and room code -
create-room always rebinds the caller as the sender of the fresh room and
a join on a free room always rebinds it as that room's receiver - while
rooms previously registered under other codes stay in the registry
unchanged (so a rebound connection's old room is orphaned, not
removed). -/
theorem C8_rebinding (isOpen : ConnId → Bool) (rooms : RoomMap) (ws : ConnId)
    (conn : ConnState) (fresh c : Code) :
    ((handleMessage isOpen rooms ws conn (ClientMsg.createRoom fresh)).conn =
       ⟨some fresh, some Role.sender⟩)
    ∧ ((handleMessage isOpen rooms ws conn (ClientMsg.createRoom fresh)).rooms =
       mapSet rooms fresh ⟨ws, none⟩)
    ∧ (∀ c', c' ≠ fresh →
         mapGet (handleMessage isOpen rooms ws conn (ClientMsg.createRoom fresh)).rooms c' =
           mapGet rooms c')
    ∧ (∀ room, mapGet rooms c = some room → room.receiver = none →
         (handleMessage isOpen rooms ws conn (ClientMsg.joinRoom c)).conn =
           ⟨some c, some Role.receiver⟩) := by
  refine ⟨rfl, rfl, ?_, ?_⟩
  · intro c' hc'
    simpa [handleMessage] using mapGet_mapSet_ne rooms fresh c' ⟨ws, none⟩ hc'
  · intro room hroom hrecv
    simp [handleMessage, hroom, hrecv]

/-- Witness for C8: rebinding a concrete bound initiator leaves its old
room's registry entry untouched. -/
theorem C8_witness :
    mapGet (handleMessage (fun _ => true) [("1000", ⟨0, none⟩)] 0
        ⟨some "1000", some Role.sender⟩ (ClientMsg.createRoom "2000")).rooms "1000" =
      mapGet [("1000", (⟨0, none⟩ : Room))] "1000" :=
  (C8_rebinding (fun _ => true) [("1000", ⟨0, none⟩)] 0
    ⟨some "1000", some Role.sender⟩ "2000" "1000").2.2.1 "1000" (by decide)

end PeerShare
